import Mathlib

/-!
Shallow embedding of `web_server.py` from the VoxNovel repository: the
single-slot background job lifecycle manager (upload handler, job-status
record, active-job token, and the background worker `process_book_job`),
together with the filename utilities it relies on (`allowed_file`,
werkzeug's `secure_filename`, `os.path.basename`, `os.path.splitext`
and Python's `int()` literal parsing).

Machine model notes:
* The shared mutable globals `current_job` and `job_status` are modelled
  by explicit state passing; the worker is modelled as the list of events
  (status writes, output-file writes, token writes) it performs, in
  program order.
* Reads of the live `current_job` inside the worker are modelled by an
  oracle `tok : Nat -> Option String` giving the value observed at the
  k-th expensive-step boundary (the worker reads it at boundaries 0..15;
  boundary 16, the final sleep plus artifact write, is never read).
* The only operation of the worker modelled as fallible is the output
  file write (the sole genuinely fallible statement in the simulated
  pipeline); it is driven by a `writeResult : Except String Unit`
  parameter, `Except.error e` standing for a raised exception whose
  `str(e)` is `e`.
* Unicode-specific behaviour (NFKD normalisation, unicode lower-casing,
  unicode whitespace) is modelled at ASCII fidelity, which is exact for
  ASCII input.
-/

/-- The `job_status` dict of `web_server.py` (its five fixed keys). -/
structure JobStatus where
  status : String
  progress : Int
  message : String
  start_time : Option String
  output_file : Option String
deriving Repr, DecidableEq

/-- The module-level initial value of `job_status` (lines 33-39). -/
def initial_job_status : JobStatus :=
  { status := "idle", progress := 0, message := "Ready to process books",
    start_time := none, output_file := none }

/-- Observable events performed by the worker, in program order. -/
inductive Ev where
  | statusW (s : JobStatus)
  | fileW (name content : String)
  | tokenW (v : Option String)
deriving Repr, DecidableEq

/-- The job-status values written, in order. -/
def statusTrace : List Ev → List JobStatus
  | [] => []
  | .statusW s :: rest => s :: statusTrace rest
  | .fileW _ _ :: rest => statusTrace rest
  | .tokenW _ :: rest => statusTrace rest

/-- The output files written, in order. -/
def fileWrites : List Ev → List (String × String)
  | [] => []
  | .fileW n c :: rest => (n, c) :: fileWrites rest
  | .statusW _ :: rest => fileWrites rest
  | .tokenW _ :: rest => fileWrites rest

/-- The values written to `current_job`, in order. -/
def tokenWrites : List Ev → List (Option String)
  | [] => []
  | .tokenW v :: rest => v :: tokenWrites rest
  | .statusW _ :: rest => tokenWrites rest
  | .fileW _ _ :: rest => tokenWrites rest

/-- Final value of `job_status` after a run starting from `s0`. -/
def finalStatus (s0 : JobStatus) (evs : List Ev) : JobStatus :=
  (statusTrace evs).getLastD s0

/-- Splits a character list at the LAST occurrence of `sep`:
`some (before, after)` with the input equal to `before ++ sep :: after`
and `sep` not occurring in `after`; `none` when `sep` does not occur. -/
def splitAtLastOccur (sep : Char) : List Char → Option (List Char × List Char)
  | [] => none
  | c :: cs =>
    match splitAtLastOccur sep cs with
    | some (b, a) => some (c :: b, a)
    | none => if c = sep then some ([], cs) else none

/-- `os.path.basename` on POSIX: the part after the last slash. -/
def basename (p : String) : String :=
  match splitAtLastOccur '/' p.data with
  | some (_, a) => String.mk a
  | none => p

/-- Stem part of `posixpath.splitext`: drop the extension from the last
dot, unless every character before that dot is itself a dot (leading-dot
names such as `.bashrc` keep their dots). Applied to plain file names
(no slash). -/
def splitextStem (l : List Char) : List Char :=
  match splitAtLastOccur '.' l with
  | none => l
  | some (b, _) => if b.all (· = '.') then l else b

/-- The `ALLOWED_EXTENSIONS` set of `allowed_file` (line 52). -/
def ALLOWED_EXTENSIONS : List String :=
  ["epub", "pdf", "mobi", "txt", "html", "rtf", "fb2", "odt", "cbr", "cbz"]

/-- `allowed_file` (lines 50-53): the name contains a dot and the
lower-cased part after the last dot (Python `rsplit('.', 1)[1].lower()`)
is in the allow-list. -/
def allowed_file (filename : String) : Bool :=
  filename.data.contains '.' &&
    ALLOWED_EXTENSIONS.contains
      (String.mk ((((splitAtLastOccur '.' filename.data).map (·.2)).getD []).map
        Char.toLower))

/-- Python `str.split()` whitespace, ASCII range. -/
def pyWhitespace (c : Char) : Bool :=
  c = ' ' || c = '\t' || c = '\n' || c = '\r' || c.toNat = 11 || c.toNat = 12

/-- Characters kept by werkzeug's strip regex `[^A-Za-z0-9_.-]`. -/
def safeFilenameChar (c : Char) : Bool :=
  c.isAlphanum || c = '_' || c = '.' || c = '-'

/-- Characters removed by `.strip("._")`. -/
def dotOrUnderscore (c : Char) : Bool :=
  c = '.' || c = '_'

/-- werkzeug's `secure_filename` on POSIX: NFKD + ascii-ignore encoding
(modelled as dropping non-ASCII characters; exact on ASCII input),
replace `os.sep` (`/`, no altsep) by a space, `"_".join(name.split())`,
delete characters outside `[A-Za-z0-9_.-]`, then `.strip("._")`. The
Windows device-name branch is dead on POSIX and omitted. -/
def secure_filename (f : String) : String :=
  let ascii := f.data.filter (fun c => c.toNat < 128)
  let nosep := ascii.map (fun c => if c = '/' then ' ' else c)
  let joined := List.intercalate ['_']
    ((List.splitOnP pyWhitespace nosep).filter (· ≠ []))
  let kept := joined.filter safeFilenameChar
  String.mk
    (((kept.dropWhile dotOrUnderscore).reverse.dropWhile dotOrUnderscore).reverse)

/-- Digit part of a Python decimal integer literal: digits with optional
single underscores strictly between digits. Continuation after the first
digit. -/
def pyIntDigitsRest : List Char → Bool
  | [] => true
  | '_' :: c :: rest => c.isDigit && pyIntDigitsRest rest
  | c :: rest => c.isDigit && pyIntDigitsRest rest

/-- Nonempty digit part of a Python decimal integer literal. -/
def pyIntDigits : List Char → Bool
  | [] => false
  | c :: rest => c.isDigit && pyIntDigitsRest rest

/-- Numeric value of a digit part, skipping grouping underscores. -/
def pyIntValue (l : List Char) : Int :=
  Int.ofNat (l.foldl (fun acc c => if c = '_' then acc else acc * 10 + (c.toNat - 48)) 0)

/-- Python `int(str)` for decimal string input: strip surrounding
whitespace, optional sign, nonempty digit part; `none` models a raised
`ValueError`. (Unicode digits/whitespace not modelled; ASCII-exact.) -/
def parsePyInt (s : String) : Option Int :=
  let l := ((s.data.dropWhile pyWhitespace).reverse.dropWhile pyWhitespace).reverse
  let signAndDigits : Int × List Char :=
    match l with
    | '+' :: rest => (1, rest)
    | '-' :: rest => (-1, rest)
    | _ => (1, l)
  if pyIntDigits signAndDigits.2 then
    some (signAndDigits.1 * pyIntValue signAndDigits.2)
  else
    none

/-- `app.config['UPLOAD_FOLDER']` (line 24). -/
def UPLOAD_FOLDER : String := "/app/uploads"

/-- `app.config['OUTPUT_FOLDER']` (line 25). -/
def OUTPUT_FOLDER : String := "/app/output_audiobooks"

/-- The processing options dict built by `upload_file` (lines 86-91). -/
structure JobOptions where
  tts_model : String
  use_gpu : Bool
  chapter_delimiter : String
  silence_duration : Int
deriving Repr, DecidableEq

/-- An incoming multipart upload request: whether a `file` part is
present, its file name and byte content, and the other form fields. -/
structure UploadRequest where
  hasFile : Bool
  filename : String
  content : String
  form : String → Option String

/-- HTTP outcome of the upload handler. `valueError` models the uncaught
`ValueError` raised by `int()` on a bad `silence_duration` field (an
internal server error, not a handled 400 response). -/
inductive UploadResponse where
  | ok (message filename : String)
  | err400 (msg : String)
  | valueError (lit : String)
deriving Repr, DecidableEq

/-- The process-wide mutable state visible to the upload handler:
`current_job`, `job_status`, and the uploads area (name, content pairs). -/
structure ServerState where
  current_job : Option String
  job_status : JobStatus
  uploads : List (String × String)
deriving Repr, DecidableEq

/-- `file.save(filepath)`: writes under `name`, silently replacing an
existing file of the same name. -/
def saveFile (files : List (String × String)) (name content : String) :
    List (String × String) :=
  if files.any (fun p => p.1 = name) then
    files.map (fun p => if p.1 = name then (name, content) else p)
  else
    files ++ [(name, content)]

/-- Result of one call to the upload handler: the HTTP response, the
state when the handler returns (or raises), and the worker thread
spawned, if any, with its `(filepath, options)` arguments. -/
structure UploadResult where
  response : UploadResponse
  state : ServerState
  spawned : Option (String × JobOptions)

/-- `upload_file` (lines 65-100). The busy check `if current_job:` is
modelled as `isSome` (every value ever assigned is a nonempty path, so
Python truthiness coincides with non-`None`). The `file and` part of
line 80 is redundant after the empty-name check (a `FileStorage` is
truthy exactly when its filename is nonempty) and is dropped. The
`silence_duration` field is converted with `int()` after the file has
been saved; a parse failure raises an uncaught `ValueError` before any
thread is spawned. -/
def upload_file (s : ServerState) (req : UploadRequest) : UploadResult :=
  if s.current_job.isSome then
    { response := .err400 "Another job is already running", state := s, spawned := none }
  else if !req.hasFile then
    { response := .err400 "No file provided", state := s, spawned := none }
  else if req.filename = "" then
    { response := .err400 "No file selected", state := s, spawned := none }
  else if allowed_file req.filename then
    let filename := secure_filename req.filename
    let filepath := UPLOAD_FOLDER ++ "/" ++ filename
    let s' := { s with uploads := saveFile s.uploads filename req.content }
    let silence : Option Int :=
      match req.form "silence_duration" with
      | none => some 500
      | some lit => parsePyInt lit
    match req.form "silence_duration", silence with
    | some lit, none => { response := .valueError lit, state := s', spawned := none }
    | _, _ =>
      let opts : JobOptions :=
        { tts_model := (req.form "tts_model").getD "xtts_v2",
          use_gpu := ((req.form "use_gpu").getD "true").toLower = "true",
          chapter_delimiter := (req.form "chapter_delimiter").getD "Chapter",
          silence_duration := silence.getD 500 }
      { response := .ok "File uploaded and processing started" filename,
        state := s', spawned := some (filepath, opts) }
  else
    { response := .err400 "File type not allowed", state := s, spawned := none }

/-- One progress update `job_status.update({'progress': i, 'message': m})`:
replaces only those two keys. -/
def updState (st : JobStatus) (p : Int) (m : String) : JobStatus :=
  { st with progress := p, message := m }

/-- Message format of the first simulated phase (line 165). -/
def fmtText (i : Int) : String := "Processing book text... " ++ toString i ++ "%"

/-- Message format of the second simulated phase (line 175). -/
def fmtTTS (i : Int) : String := "Generating audio... " ++ toString i ++ "%"

/-- `range(10, 50, 5)`. -/
def textSteps : List Int := [10, 15, 20, 25, 30, 35, 40, 45]

/-- `range(50, 90, 5)`. -/
def ttsSteps : List Int := [50, 55, 60, 65, 70, 75, 80, 85]

/-- One simulated phase loop (lines 159-166 and 169-176): at each
iteration the worker first reads the live token (oracle value `tok k`)
and returns early when it differs from its captured `filepath`,
otherwise sleeps and writes a progress update. Returns the status
writes performed, the final status value, the next read index, and
whether the loop returned early (aborted). -/
def simPhase (fp : String) (tok : Nat → Option String) (fmt : Int → String) :
    List Int → Nat → JobStatus → List JobStatus × JobStatus × Nat × Bool
  | [], k, st => ([], st, k, false)
  | i :: rest, k, st =>
    if tok k = some fp then
      let st' := updState st i (fmt i)
      let r := simPhase fp tok fmt rest (k + 1) st'
      (st' :: r.1, r.2)
    else
      ([], st, k, true)

/-- The status update of lines 136-140 (collaborator modules missing). -/
def errUnavailable (s0 : JobStatus) : JobStatus :=
  { s0 with
    status := "error", message := "VoxNovel modules not available",
    progress := 0 }

/-- The status update of lines 146-152 (start of processing); sets all
five keys, so it does not depend on the previous record. -/
def startState (now : String) : JobStatus :=
  { status := "processing", progress := 10,
    message := "Starting book processing...",
    start_time := some now, output_file := none }

/-- `f"{os.path.splitext(filename)[0]}_audiobook.m4b"` (line 180). -/
def output_filename (filename : String) : String :=
  String.mk (splitextStem filename.data) ++ "_audiobook.m4b"

/-- The bytes written to the output artifact (line 186). -/
def dummyAudiobookContent : String := "This would be the generated audiobook file"

/-- The completion update of lines 188-193. -/
def completedState (st : JobStatus) (outname : String) : JobStatus :=
  { st with
    status := "completed", progress := 100,
    message := "Audiobook generated successfully: " ++ outname,
    output_file := some outname }

/-- The failure update of lines 196-200. -/
def failedState (st : JobStatus) (e : String) : JobStatus :=
  { st with
    status := "error", message := "Processing failed: " ++ e,
    progress := 0 }

/-- Body of `process_book_job` when `VOXNOVEL_AVAILABLE` is true (lines
143-203): set the token, write the start-of-processing update (sets all
five keys, so the trace does not depend on the record on entry), run the
two simulated phases with their per-chunk supersession checks, then do
the unchecked final step (sleep, artifact write, completion update) or
the exception handler, and clear the token in the `finally` block on
every path. -/
def process_book_job_avail (fp : String) (tok : Nat → Option String)
    (writeResult : Except String Unit) (now : String) : List Ev :=
  Ev.tokenW (some fp) :: Ev.statusW (startState now) ::
    (match simPhase fp tok fmtText textSteps 0 (startState now) with
     | (sts1, _, _, true) => sts1.map Ev.statusW ++ [Ev.tokenW none]
     | (sts1, st1, k1, false) =>
       sts1.map Ev.statusW ++
         match simPhase fp tok fmtTTS ttsSteps k1 st1 with
         | (sts2, _, _, true) => sts2.map Ev.statusW ++ [Ev.tokenW none]
         | (sts2, st2, _, false) =>
           sts2.map Ev.statusW ++
             (match writeResult with
              | .ok _ =>
                [Ev.fileW (output_filename (basename fp)) dummyAudiobookContent,
                 Ev.statusW (completedState st2 (output_filename (basename fp))),
                 Ev.tokenW none]
              | .error e => [Ev.statusW (failedState st2 e), Ev.tokenW none]))

/-- `process_book_job` (lines 131-203) as its event trace. `vox` is the
import-time constant `VOXNOVEL_AVAILABLE`; `tok` is the oracle for the
live `current_job` reads; `writeResult` drives the artifact write
(the one fallible statement modelled); `now` is
`datetime.now().isoformat()`; `s0` is `job_status` on entry. When the
collaborator modules are missing the worker returns at line 141 before
the token is ever set or the `try` block entered. -/
def process_book_job (vox : Bool) (filepath : String) (tok : Nat → Option String)
    (writeResult : Except String Unit) (now : String) (s0 : JobStatus) : List Ev :=
  if vox = false then
    [Ev.statusW (errUnavailable s0)]
  else
    process_book_job_avail filepath tok writeResult now

lemma statusTrace_append (a b : List Ev) :
    statusTrace (a ++ b) = statusTrace a ++ statusTrace b := by
  induction a with
  | nil => rfl
  | cons e rest ih => cases e <;> simp [statusTrace, ih]

lemma fileWrites_append (a b : List Ev) :
    fileWrites (a ++ b) = fileWrites a ++ fileWrites b := by
  induction a with
  | nil => rfl
  | cons e rest ih => cases e <;> simp [fileWrites, ih]

lemma tokenWrites_append (a b : List Ev) :
    tokenWrites (a ++ b) = tokenWrites a ++ tokenWrites b := by
  induction a with
  | nil => rfl
  | cons e rest ih => cases e <;> simp [tokenWrites, ih]

lemma statusTrace_map_statusW (l : List JobStatus) :
    statusTrace (l.map Ev.statusW) = l := by
  induction l with
  | nil => rfl
  | cons s rest ih => simp [statusTrace, ih]

lemma fileWrites_map_statusW (l : List JobStatus) :
    fileWrites (l.map Ev.statusW) = [] := by
  induction l with
  | nil => rfl
  | cons s rest ih => simp [fileWrites, ih]

lemma tokenWrites_map_statusW (l : List JobStatus) :
    tokenWrites (l.map Ev.statusW) = [] := by
  induction l with
  | nil => rfl
  | cons s rest ih => simp [tokenWrites, ih]

/-- Progress updates leave `status`, `start_time` and `output_file`
untouched: both every emitted state and the final state of a phase agree
with the input state on those three fields. -/
lemma simPhase_fields (fp : String) (tok : Nat → Option String) (fmt : Int → String) :
    ∀ (steps : List Int) (k : Nat) (st : JobStatus),
      (∀ s' ∈ (simPhase fp tok fmt steps k st).1,
        s'.status = st.status ∧ s'.start_time = st.start_time ∧
          s'.output_file = st.output_file) ∧
      ((simPhase fp tok fmt steps k st).2.1.status = st.status ∧
        (simPhase fp tok fmt steps k st).2.1.start_time = st.start_time ∧
        (simPhase fp tok fmt steps k st).2.1.output_file = st.output_file) := by
  intro steps
  induction steps with
  | nil => intro k st; simp [simPhase]
  | cons i rest ih =>
    intro k st
    by_cases h : tok k = some fp
    · have hu := ih (k + 1) (updState st i (fmt i))
      constructor
      · intro s' hs'
        simp only [simPhase, h, if_pos, List.mem_cons] at hs'
        rcases hs' with rfl | hs'
        · simp [updState]
        · have := hu.1 s' hs'
          simpa [updState] using this
      · simp only [simPhase, h, if_pos]
        have := hu.2
        simpa [updState] using this
    · simp [simPhase, h]

/-- Every emitted progress update of a phase sits behind a passed
supersession check: the `j`-th emitted state required `tok (k + j)` to
equal the captured token. -/
lemma simPhase_checks (fp : String) (tok : Nat → Option String) (fmt : Int → String) :
    ∀ (steps : List Int) (k : Nat) (st : JobStatus),
      ∀ j < (simPhase fp tok fmt steps k st).1.length, tok (k + j) = some fp := by
  intro steps
  induction steps with
  | nil => intro k st j hj; simp [simPhase] at hj
  | cons i rest ih =>
    intro k st j hj
    by_cases h : tok k = some fp
    · simp only [simPhase, h, if_pos, List.length_cons] at hj
      match j with
      | 0 => simpa using h
      | j' + 1 =>
        have := ih (k + 1) (updState st i (fmt i)) j' (by omega)
        simpa [Nat.add_assoc, Nat.add_comm 1 j'] using this
    · simp [simPhase, h] at hj

/-- A phase that did not return early passed all its checks, emitted one
update per step, and advanced the read index by the number of steps. -/
lemma simPhase_noabort (fp : String) (tok : Nat → Option String) (fmt : Int → String) :
    ∀ (steps : List Int) (k : Nat) (st : JobStatus),
      (simPhase fp tok fmt steps k st).2.2.2 = false →
      (∀ j < steps.length, tok (k + j) = some fp) ∧
        (simPhase fp tok fmt steps k st).1.length = steps.length ∧
        (simPhase fp tok fmt steps k st).2.2.1 = k + steps.length := by
  intro steps
  induction steps with
  | nil => intro k st _; simp [simPhase]
  | cons i rest ih =>
    intro k st hab
    by_cases h : tok k = some fp
    · simp only [simPhase, h, if_pos] at hab ⊢
      have hrec := ih (k + 1) (updState st i (fmt i)) hab
      refine ⟨?_, by simpa [Nat.add_assoc] using hrec.2.1, ?_⟩
      · intro j hj
        match j with
        | 0 => simpa using h
        | j' + 1 =>
          have := hrec.1 j' (by simpa using hj)
          simpa [Nat.add_assoc, Nat.add_comm 1 j'] using this
      · have := hrec.2.2
        simpa [Nat.add_assoc, Nat.add_comm 1 rest.length] using this
    · simp [simPhase, h] at hab

/-- Shape of every in-processing job record: the fields set by the
start-of-processing update with the progress/message of the latest
progress update. -/
def progressState (now : String) (p : Int) (m : String) : JobStatus :=
  { status := "processing", progress := p, message := m,
    start_time := some now, output_file := none }

lemma updState_startState (now : String) (p : Int) (m : String) :
    updState (startState now) p m = progressState now p m := rfl

lemma updState_progressState (now : String) (p p' : Int) (m m' : String) :
    updState (progressState now p m) p' m' = progressState now p' m' := rfl

/-- The full event trace of a run that is never superseded and whose
artifact write succeeds. -/
def successEvs (fp now : String) : List Ev :=
  [Ev.tokenW (some fp), Ev.statusW (startState now),
   Ev.statusW (progressState now 10 (fmtText 10)),
   Ev.statusW (progressState now 15 (fmtText 15)),
   Ev.statusW (progressState now 20 (fmtText 20)),
   Ev.statusW (progressState now 25 (fmtText 25)),
   Ev.statusW (progressState now 30 (fmtText 30)),
   Ev.statusW (progressState now 35 (fmtText 35)),
   Ev.statusW (progressState now 40 (fmtText 40)),
   Ev.statusW (progressState now 45 (fmtText 45)),
   Ev.statusW (progressState now 50 (fmtTTS 50)),
   Ev.statusW (progressState now 55 (fmtTTS 55)),
   Ev.statusW (progressState now 60 (fmtTTS 60)),
   Ev.statusW (progressState now 65 (fmtTTS 65)),
   Ev.statusW (progressState now 70 (fmtTTS 70)),
   Ev.statusW (progressState now 75 (fmtTTS 75)),
   Ev.statusW (progressState now 80 (fmtTTS 80)),
   Ev.statusW (progressState now 85 (fmtTTS 85)),
   Ev.fileW (output_filename (basename fp)) dummyAudiobookContent,
   Ev.statusW (completedState (progressState now 85 (fmtTTS 85))
     (output_filename (basename fp))),
   Ev.tokenW none]

/-- The full event trace of a run that is never superseded and whose
artifact write raises an exception rendered as `e`. -/
def failEvs (fp now e : String) : List Ev :=
  [Ev.tokenW (some fp), Ev.statusW (startState now),
   Ev.statusW (progressState now 10 (fmtText 10)),
   Ev.statusW (progressState now 15 (fmtText 15)),
   Ev.statusW (progressState now 20 (fmtText 20)),
   Ev.statusW (progressState now 25 (fmtText 25)),
   Ev.statusW (progressState now 30 (fmtText 30)),
   Ev.statusW (progressState now 35 (fmtText 35)),
   Ev.statusW (progressState now 40 (fmtText 40)),
   Ev.statusW (progressState now 45 (fmtText 45)),
   Ev.statusW (progressState now 50 (fmtTTS 50)),
   Ev.statusW (progressState now 55 (fmtTTS 55)),
   Ev.statusW (progressState now 60 (fmtTTS 60)),
   Ev.statusW (progressState now 65 (fmtTTS 65)),
   Ev.statusW (progressState now 70 (fmtTTS 70)),
   Ev.statusW (progressState now 75 (fmtTTS 75)),
   Ev.statusW (progressState now 80 (fmtTTS 80)),
   Ev.statusW (progressState now 85 (fmtTTS 85)),
   Ev.statusW (failedState (progressState now 85 (fmtTTS 85)) e),
   Ev.tokenW none]

/-- A never-superseded run with a successful artifact write performs
exactly the events of `successEvs`. -/
lemma run_success_eq (fp now : String) :
    process_book_job_avail fp (fun _ => some fp) (Except.ok ()) now =
      successEvs fp now := by
  simp [process_book_job_avail, simPhase, textSteps, ttsSteps,
    updState_startState, updState_progressState, successEvs]

/-- A never-superseded run whose artifact write raises performs exactly
the events of `failEvs`. -/
lemma run_fail_eq (fp now e : String) :
    process_book_job_avail fp (fun _ => some fp) (Except.error e) now =
      failEvs fp now e := by
  simp [process_book_job_avail, simPhase, textSteps, ttsSteps,
    updState_startState, updState_progressState, failEvs]

lemma process_book_job_true (fp : String) (tok : Nat → Option String)
    (wr : Except String Unit) (now : String) (s0 : JobStatus) :
    process_book_job true fp tok wr now s0 = process_book_job_avail fp tok wr now := by
  simp [process_book_job]

lemma process_book_job_false (fp : String) (tok : Nat → Option String)
    (wr : Except String Unit) (now : String) (s0 : JobStatus) :
    process_book_job false fp tok wr now s0 = [Ev.statusW (errUnavailable s0)] := by
  simp [process_book_job]

/-- C1: while the Active Job Token (`current_job`) is non-null, an
upload request returns 400 with the "Another job is already running"
error, the whole server state (job record, token, uploads area) is
returned unchanged, and no worker thread is spawned. -/
theorem C1_busy_upload_rejected_unchanged (s : ServerState) (req : UploadRequest)
    (h : s.current_job.isSome = true) :
    upload_file s req =
      { response := UploadResponse.err400 "Another job is already running",
        state := s, spawned := none } := by
  unfold upload_file
  rw [h]
  simp

/-- Witness for C1 at a concrete busy state and request. -/
theorem C1_witness :
    upload_file
      { current_job := some "/app/uploads/other.epub",
        job_status := initial_job_status, uploads := [] }
      { hasFile := true, filename := "book.epub", content := "DATA",
        form := fun _ => none } =
      { response := UploadResponse.err400 "Another job is already running",
        state := { current_job := some "/app/uploads/other.epub",
                   job_status := initial_job_status, uploads := [] },
        spawned := none } :=
  C1_busy_upload_rejected_unchanged _ _ rfl

/-- The last token write of every worker run that entered the `try`
block is the `finally` clear. -/
lemma tokenWrites_avail_getLast (fp : String) (tok : Nat → Option String)
    (wr : Except String Unit) (now : String) :
    (tokenWrites (process_book_job_avail fp tok wr now)).getLast? = some none := by
  unfold process_book_job_avail
  rcases h1 : simPhase fp tok fmtText textSteps 0 (startState now) with ⟨sts1, st1, k1, ab1⟩
  cases ab1 with
  | true =>
    simp [h1, tokenWrites, tokenWrites_append, tokenWrites_map_statusW]
  | false =>
    rcases h2 : simPhase fp tok fmtTTS ttsSteps k1 st1 with ⟨sts2, st2, k2, ab2⟩
    cases ab2 with
    | true =>
      simp [h1, h2, tokenWrites, tokenWrites_append, tokenWrites_map_statusW]
    | false =>
      cases wr with
      | ok u =>
        simp [h1, h2, tokenWrites, tokenWrites_append, tokenWrites_map_statusW]
      | error e =>
        simp [h1, h2, tokenWrites, tokenWrites_append, tokenWrites_map_statusW]

/-- C2: every worker execution that sets the Active Job Token clears it
when its execution path ends: whatever the supersession oracle and the
artifact-write outcome, the final token write of the run is `none`, and
an upload arriving at a state whose token is null is never rejected
with the "already running" error. -/
theorem C2_token_cleared_unconditionally (fp : String) (tok : Nat → Option String)
    (wr : Except String Unit) (now : String) (s0 : JobStatus) :
    (tokenWrites (process_book_job true fp tok wr now s0)).getLast? = some none ∧
    ∀ (js : JobStatus) (ups : List (String × String)) (req : UploadRequest),
      (upload_file { current_job := none, job_status := js, uploads := ups }
          req).response ≠
        UploadResponse.err400 "Another job is already running" := by
  constructor
  · rw [process_book_job_true]
    exact tokenWrites_avail_getLast fp tok wr now
  · intro js ups req
    unfold upload_file
    simp only [Option.isSome_none, Bool.false_eq_true, if_false]
    split
    · intro hc; injection hc with h; exact absurd h (by decide)
    · split
      · intro hc; injection hc with h; exact absurd h (by decide)
      · split
        · split
          · intro hc; injection hc
          · intro hc; injection hc
        · intro hc; injection hc with h; exact absurd h (by decide)

/-- The saved entry is present in the uploads area after `file.save`. -/
lemma saveFile_mem (ups : List (String × String)) (n c : String) :
    (n, c) ∈ saveFile ups n c := by
  unfold saveFile
  split
  · next h =>
    rcases List.any_eq_true.mp h with ⟨p, hp, hpeq⟩
    have hpn : p.1 = n := of_decide_eq_true hpeq
    exact List.mem_map.mpr ⟨p, hp, by simp [hpn]⟩
  · exact List.mem_append_right _ (List.mem_singleton.mpr rfl)

/-- C10: an otherwise valid upload whose `silence_duration` form field
is present but not a valid integer literal raises an uncaught
`ValueError` (not a 400 response), after the file has been saved into
the uploads area and before any worker thread is spawned: the rejected
request leaves the saved file behind. -/
theorem C10_bad_silence_duration_not_atomic (s : ServerState) (req : UploadRequest)
    (lit : String) (h1 : s.current_job = none) (h2 : req.hasFile = true)
    (h3 : ¬ req.filename = "") (h4 : allowed_file req.filename = true)
    (h5 : req.form "silence_duration" = some lit) (h6 : parsePyInt lit = none) :
    (upload_file s req).response = UploadResponse.valueError lit ∧
    (upload_file s req).state.uploads =
      saveFile s.uploads (secure_filename req.filename) req.content ∧
    (secure_filename req.filename, req.content) ∈ (upload_file s req).state.uploads ∧
    (upload_file s req).spawned = none := by
  unfold upload_file
  rw [h1]
  simp only [Option.isSome_none, Bool.false_eq_true, if_false, h2, Bool.not_true,
    if_neg h3, if_pos h4, h5, h6]
  exact ⟨trivial, trivial, saveFile_mem _ _ _, trivial⟩

/-- Witness for C10: a concrete idle state and a request whose
`silence_duration` field is the non-numeric string `abc`. -/
theorem C10_witness :
    (upload_file
      { current_job := none, job_status := initial_job_status, uploads := [] }
      { hasFile := true, filename := "book.epub", content := "DATA",
        form := fun k => if k = "silence_duration" then some "abc" else none
      }).response = UploadResponse.valueError "abc" :=
  (C10_bad_silence_duration_not_atomic _ _ "abc" rfl rfl (by decide) (by decide)
    (by simp) (by decide)).1

/-- C9: with the VoxNovel collaborator modules unavailable
(`VOXNOVEL_AVAILABLE = False`), an otherwise valid upload still returns
200 and spawns a worker, but that worker's only job-record write is the
error update (status `error`, progress 0, message "VoxNovel modules not
available"): it never writes a `processing` status, leaves `start_time`
untouched, and never writes the Active Job Token. -/
theorem C9_unavailable_bypasses_state_machine (s : ServerState) (req : UploadRequest)
    (h1 : s.current_job = none) (h2 : req.hasFile = true)
    (h3 : ¬ req.filename = "") (h4 : allowed_file req.filename = true)
    (h5 : req.form "silence_duration" = none) :
    ((upload_file s req).response =
        UploadResponse.ok "File uploaded and processing started"
          (secure_filename req.filename) ∧
      (upload_file s req).spawned.isSome = true) ∧
    ∀ (fp now : String) (tok : Nat → Option String) (wr : Except String Unit)
      (s0 : JobStatus),
      statusTrace (process_book_job false fp tok wr now s0) = [errUnavailable s0] ∧
      (errUnavailable s0).status = "error" ∧
      (errUnavailable s0).progress = 0 ∧
      (errUnavailable s0).message = "VoxNovel modules not available" ∧
      (errUnavailable s0).start_time = s0.start_time ∧
      tokenWrites (process_book_job false fp tok wr now s0) = [] ∧
      ∀ st ∈ statusTrace (process_book_job false fp tok wr now s0),
        st.status ≠ "processing" := by
  constructor
  · unfold upload_file
    rw [h1]
    simp only [Option.isSome_none, Bool.false_eq_true, if_false, h2, Bool.not_true,
      if_neg h3, if_pos h4, h5]
    exact ⟨trivial, rfl⟩
  · intro fp now tok wr s0
    rw [process_book_job_false]
    refine ⟨rfl, rfl, rfl, rfl, rfl, rfl, ?_⟩
    intro st hst
    simp only [statusTrace, List.mem_singleton] at hst
    subst hst
    intro hc
    exact absurd hc (by simp [errUnavailable])

/-- Witness for C9 at a concrete idle state, a valid request and a
concrete worker invocation. -/
theorem C9_witness :
    statusTrace
      (process_book_job false "/app/uploads/book.epub" (fun _ => none)
        (Except.ok ()) "t0" initial_job_status) =
      [errUnavailable initial_job_status] :=
  ((C9_unavailable_bypasses_state_machine
    { current_job := none, job_status := initial_job_status, uploads := [] }
    { hasFile := true, filename := "book.epub", content := "DATA",
      form := fun _ => none }
    rfl rfl (by decide) (by decide) rfl).2 "/app/uploads/book.epub" "t0"
    (fun _ => none) (Except.ok ()) initial_job_status).1

/-- C4: in a non-superseded run (every token read returns the captured
token), the progress values written to the job record are integers in
[0, 100] starting at 10: on a successful run they form a non-decreasing
sequence ending at exactly 100; on a failed run every write before the
terminal one is non-decreasing, and the final state has progress 0 with
the failure reason recorded in the message. -/
theorem C4_progress_monotone_and_terminal (fp now : String) (s0 : JobStatus) :
    (List.Chain' (fun p q => p ≤ q)
        ((statusTrace (process_book_job true fp (fun _ => some fp) (Except.ok ())
          now s0)).map JobStatus.progress) ∧
      (∀ p ∈ (statusTrace (process_book_job true fp (fun _ => some fp)
          (Except.ok ()) now s0)).map JobStatus.progress, 0 ≤ p ∧ p ≤ 100) ∧
      ((statusTrace (process_book_job true fp (fun _ => some fp) (Except.ok ())
          now s0)).map JobStatus.progress).head? = some 10 ∧
      ((statusTrace (process_book_job true fp (fun _ => some fp) (Except.ok ())
          now s0)).map JobStatus.progress).getLast? = some 100) ∧
    ∀ e : String,
      List.Chain' (fun p q => p ≤ q)
        (((statusTrace (process_book_job true fp (fun _ => some fp)
          (Except.error e) now s0)).map JobStatus.progress).dropLast) ∧
      (∀ p ∈ (statusTrace (process_book_job true fp (fun _ => some fp)
          (Except.error e) now s0)).map JobStatus.progress, 0 ≤ p ∧ p ≤ 100) ∧
      ((statusTrace (process_book_job true fp (fun _ => some fp) (Except.error e)
          now s0)).map JobStatus.progress).getLast? = some 0 ∧
      (finalStatus s0 (process_book_job true fp (fun _ => some fp)
          (Except.error e) now s0)).message = "Processing failed: " ++ e ∧
      (finalStatus s0 (process_book_job true fp (fun _ => some fp)
          (Except.error e) now s0)).progress = 0 := by
  have hok : (statusTrace (process_book_job true fp (fun _ => some fp)
      (Except.ok ()) now s0)).map JobStatus.progress =
      [10, 10, 15, 20, 25, 30, 35, 40, 45, 50, 55, 60, 65, 70, 75, 80, 85, 100] := by
    rw [process_book_job_true, run_success_eq]
    simp [successEvs, statusTrace, startState, progressState, completedState]
  have herr : ∀ e : String, (statusTrace (process_book_job true fp (fun _ => some fp)
      (Except.error e) now s0)).map JobStatus.progress =
      [10, 10, 15, 20, 25, 30, 35, 40, 45, 50, 55, 60, 65, 70, 75, 80, 85, 0] := by
    intro e
    rw [process_book_job_true, run_fail_eq]
    simp [failEvs, statusTrace, startState, progressState, failedState]
  refine ⟨?_, ?_⟩
  · rw [hok]
    refine ⟨?_, ?_, rfl, ?_⟩
    · norm_num [List.chain'_cons, List.chain'_singleton]
    · norm_num
    · norm_num [List.getLast?]
  · intro e
    rw [herr e]
    refine ⟨?_, ?_, ?_, ?_, ?_⟩
    · norm_num [List.chain'_cons, List.chain'_singleton]
    · norm_num
    · norm_num [List.getLast?]
    · rw [process_book_job_true, run_fail_eq]
      simp [failEvs, statusTrace, finalStatus, failedState, progressState]
    · rw [process_book_job_true, run_fail_eq]
      simp [failEvs, statusTrace, finalStatus, failedState, progressState]

/-- C8: a successful non-superseded run writes exactly one output
artifact, named after the upload's base name with its extension
replaced by `_audiobook.m4b`, and only after that write does it
transition the job record to `completed` with `output_file` set to that
name and progress 100. -/
theorem C8_single_artifact_before_completed (fp now : String) (s0 : JobStatus) :
    fileWrites (process_book_job true fp (fun _ => some fp) (Except.ok ()) now s0) =
      [(output_filename (basename fp), dummyAudiobookContent)] ∧
    ∃ (pre : List Ev) (done : JobStatus),
      process_book_job true fp (fun _ => some fp) (Except.ok ()) now s0 =
        pre ++ [Ev.fileW (output_filename (basename fp)) dummyAudiobookContent,
                Ev.statusW done, Ev.tokenW none] ∧
      (∀ st ∈ statusTrace pre, st.status = "processing") ∧
      done.status = "completed" ∧ done.progress = 100 ∧
      done.output_file = some (output_filename (basename fp)) := by
  rw [process_book_job_true, run_success_eq]
  refine ⟨rfl,
    [Ev.tokenW (some fp), Ev.statusW (startState now),
     Ev.statusW (progressState now 10 (fmtText 10)),
     Ev.statusW (progressState now 15 (fmtText 15)),
     Ev.statusW (progressState now 20 (fmtText 20)),
     Ev.statusW (progressState now 25 (fmtText 25)),
     Ev.statusW (progressState now 30 (fmtText 30)),
     Ev.statusW (progressState now 35 (fmtText 35)),
     Ev.statusW (progressState now 40 (fmtText 40)),
     Ev.statusW (progressState now 45 (fmtText 45)),
     Ev.statusW (progressState now 50 (fmtTTS 50)),
     Ev.statusW (progressState now 55 (fmtTTS 55)),
     Ev.statusW (progressState now 60 (fmtTTS 60)),
     Ev.statusW (progressState now 65 (fmtTTS 65)),
     Ev.statusW (progressState now 70 (fmtTTS 70)),
     Ev.statusW (progressState now 75 (fmtTTS 75)),
     Ev.statusW (progressState now 80 (fmtTTS 80)),
     Ev.statusW (progressState now 85 (fmtTTS 85))],
    completedState (progressState now 85 (fmtTTS 85)) (output_filename (basename fp)),
    rfl, ?_, rfl, rfl, rfl⟩
  intro st hst
  simp only [statusTrace, List.mem_cons, List.not_mem_nil, or_false] at hst
  rcases hst with rfl | rfl | rfl | rfl | rfl | rfl | rfl | rfl | rfl | rfl | rfl |
    rfl | rfl | rfl | rfl | rfl | rfl <;> rfl

/-- C3 counterexample: the oracle below makes every performed check
(read boundaries 0..15) pass and supersedes the token from boundary 16
on, i.e. before the final time-consuming step (the final sleep and the
artifact write, which the worker performs with no preceding check); the
worker nevertheless writes the artifact and transitions to `completed`,
so the worker does NOT verify its token before every expensive step. -/
theorem C3_counterexample :
    ((fun n => if n ≤ 15 then some "/app/uploads/book.epub" else none) 16 ≠
        some "/app/uploads/book.epub") ∧
    ((statusTrace (process_book_job true "/app/uploads/book.epub"
        (fun n => if n ≤ 15 then some "/app/uploads/book.epub" else none)
        (Except.ok ()) "t0" initial_job_status)).getLast?).map JobStatus.status =
      some "completed" ∧
    fileWrites (process_book_job true "/app/uploads/book.epub"
        (fun n => if n ≤ 15 then some "/app/uploads/book.epub" else none)
        (Except.ok ()) "t0" initial_job_status) ≠ [] := by
  decide

/-- C3 amended: the worker checks its captured token against the live
one before each chunked step of the two simulated phases (read
boundaries 0..15) but not before the final assembly step; whenever the
live token stops matching no later than boundary 15, the worker never
leaves `processing` in the job record, writes no artifact, performs at
most `m + 1` job-record writes, and its last token write is the
`finally` clear. -/
theorem C3_amended_superseded_in_loops_abandons (fp now : String) (s0 : JobStatus)
    (tok : Nat → Option String) (wr : Except String Unit) (m : Nat)
    (hm : m ≤ 15) (hsup : ∀ n, m ≤ n → tok n ≠ some fp) :
    (∀ st ∈ statusTrace (process_book_job true fp tok wr now s0),
      st.status = "processing") ∧
    fileWrites (process_book_job true fp tok wr now s0) = [] ∧
    (statusTrace (process_book_job true fp tok wr now s0)).length ≤ m + 1 ∧
    (tokenWrites (process_book_job true fp tok wr now s0)).getLast? = some none := by
  rw [process_book_job_true]
  have hclear := tokenWrites_avail_getLast fp tok wr now
  have hmain : (∀ st ∈ statusTrace (process_book_job_avail fp tok wr now),
      st.status = "processing") ∧
      fileWrites (process_book_job_avail fp tok wr now) = [] ∧
      (statusTrace (process_book_job_avail fp tok wr now)).length ≤ m + 1 := by
    unfold process_book_job_avail
    rcases h1 : simPhase fp tok fmtText textSteps 0 (startState now) with
      ⟨sts1, st1, k1, ab1⟩
    have hf1 := simPhase_fields fp tok fmtText textSteps 0 (startState now)
    have hc1 := simPhase_checks fp tok fmtText textSteps 0 (startState now)
    rw [h1] at hf1 hc1
    dsimp only at hf1 hc1
    have hlen1 : sts1.length ≤ m := by
      by_contra hcon
      push_neg at hcon
      exact hsup m le_rfl (by simpa using hc1 m hcon)
    cases ab1 with
    | true =>
      refine ⟨?_, ?_, ?_⟩
      · intro st hst
        simp only [statusTrace, statusTrace_append, statusTrace_map_statusW,
          List.append_nil, List.mem_cons, List.mem_append] at hst
        rcases hst with rfl | hst
        · rfl
        · exact (hf1.1 st hst).1
      · simp [fileWrites, fileWrites_append, fileWrites_map_statusW]
      · simp only [statusTrace, statusTrace_append, statusTrace_map_statusW,
          List.append_nil, List.length_cons, List.length_append]
        omega
    | false =>
      have hna1 := simPhase_noabort fp tok fmtText textSteps 0 (startState now)
        (by rw [h1])
      rw [h1] at hna1
      dsimp only at hna1
      have hlen1eq : sts1.length = 8 := by simpa [textSteps] using hna1.2.1
      have hk1 : k1 = 8 := by simpa [textSteps] using hna1.2.2
      have hm8 : 8 ≤ m := by omega
      rcases h2 : simPhase fp tok fmtTTS ttsSteps k1 st1 with ⟨sts2, st2, k2, ab2⟩
      have hf2 := simPhase_fields fp tok fmtTTS ttsSteps k1 st1
      have hc2 := simPhase_checks fp tok fmtTTS ttsSteps k1 st1
      rw [h2] at hf2 hc2
      dsimp only at hf2 hc2
      have hlen2 : sts2.length ≤ m - 8 := by
        by_contra hcon
        push_neg at hcon
        have hpass : tok (k1 + (m - 8)) = some fp := hc2 (m - 8) (by omega)
        rw [hk1] at hpass
        have hmeq : 8 + (m - 8) = m := by omega
        rw [hmeq] at hpass
        exact hsup m le_rfl hpass
      cases ab2 with
      | true =>
        dsimp only
        rw [h2]
        refine ⟨?_, ?_, ?_⟩
        · intro st hst
          simp only [statusTrace, statusTrace_append, statusTrace_map_statusW,
            List.append_nil, List.mem_cons, List.mem_append] at hst
          rcases hst with rfl | hst | hst
          · rfl
          · exact (hf1.1 st hst).1
          · exact ((hf2.1 st hst).1).trans hf1.2.1
        · simp [fileWrites, fileWrites_append, fileWrites_map_statusW]
        · simp only [statusTrace, statusTrace_append, statusTrace_map_statusW,
            List.append_nil, List.length_cons, List.length_append]
          omega
      | false =>
        exfalso
        have hna2 := simPhase_noabort fp tok fmtTTS ttsSteps k1 st1 (by rw [h2])
        have hpass : tok (k1 + (m - 8)) = some fp :=
          hna2.1 (m - 8) (by simp [ttsSteps]; omega)
        rw [hk1] at hpass
        have hmeq : 8 + (m - 8) = m := by omega
        rw [hmeq] at hpass
        exact hsup m le_rfl hpass
  exact ⟨hmain.1, hmain.2.1, hmain.2.2, hclear⟩

/-- Witness for the amended C3: a run whose token is superseded from the
very first check writes no artifact. -/
theorem C3_amended_witness :
    fileWrites (process_book_job true "/app/uploads/book.epub" (fun _ => none)
      (Except.ok ()) "t0" initial_job_status) = [] :=
  (C3_amended_superseded_in_loops_abandons "/app/uploads/book.epub" "t0"
    initial_job_status (fun _ => none) (Except.ok ()) 0 (by decide)
    (fun n _ => by simp)).2.1

/-- Classification of every job-record write of a worker run that
entered the `try` block: processing states carry no output file, the
completion state carries one, the failure state carries none. -/
lemma statusTrace_avail_cases (fp : String) (tok : Nat → Option String)
    (wr : Except String Unit) (now : String) :
    ∀ st ∈ statusTrace (process_book_job_avail fp tok wr now),
      (st.status = "processing" ∧ st.output_file = none) ∨
      (st.status = "completed" ∧ st.output_file ≠ none) ∨
      (st.status = "error" ∧ st.output_file = none) := by
  unfold process_book_job_avail
  rcases h1 : simPhase fp tok fmtText textSteps 0 (startState now) with
    ⟨sts1, st1, k1, ab1⟩
  have hf1 := simPhase_fields fp tok fmtText textSteps 0 (startState now)
  rw [h1] at hf1
  dsimp only at hf1
  cases ab1 with
  | true =>
    intro st hst
    simp only [statusTrace, statusTrace_append, statusTrace_map_statusW,
      List.append_nil, List.mem_cons, List.mem_append] at hst
    rcases hst with rfl | hst
    · exact Or.inl ⟨rfl, rfl⟩
    · exact Or.inl ⟨(hf1.1 st hst).1, (hf1.1 st hst).2.2⟩
  | false =>
    dsimp only
    rcases h2 : simPhase fp tok fmtTTS ttsSteps k1 st1 with ⟨sts2, st2, k2, ab2⟩
    have hf2 := simPhase_fields fp tok fmtTTS ttsSteps k1 st1
    rw [h2] at hf2
    dsimp only at hf2
    cases ab2 with
    | true =>
      dsimp only
      intro st hst
      simp only [statusTrace, statusTrace_append, statusTrace_map_statusW,
        List.append_nil, List.mem_cons, List.mem_append] at hst
      rcases hst with rfl | hst | hst
      · exact Or.inl ⟨rfl, rfl⟩
      · exact Or.inl ⟨(hf1.1 st hst).1, (hf1.1 st hst).2.2⟩
      · exact Or.inl ⟨((hf2.1 st hst).1).trans hf1.2.1,
          ((hf2.1 st hst).2.2).trans hf1.2.2.2⟩
    | false =>
      dsimp only
      cases wr with
      | ok u =>
        intro st hst
        simp only [statusTrace, statusTrace_append, statusTrace_map_statusW,
          List.append_nil, List.mem_cons, List.mem_append,
          List.not_mem_nil, or_false] at hst
        rcases hst with rfl | hst | hst | rfl
        · exact Or.inl ⟨rfl, rfl⟩
        · exact Or.inl ⟨(hf1.1 st hst).1, (hf1.1 st hst).2.2⟩
        · exact Or.inl ⟨((hf2.1 st hst).1).trans hf1.2.1,
            ((hf2.1 st hst).2.2).trans hf1.2.2.2⟩
        · exact Or.inr (Or.inl ⟨rfl, by simp [completedState]⟩)
      | error e =>
        intro st hst
        simp only [statusTrace, statusTrace_append, statusTrace_map_statusW,
          List.append_nil, List.mem_cons, List.mem_append,
          List.not_mem_nil, or_false] at hst
        rcases hst with rfl | hst | hst | rfl
        · exact Or.inl ⟨rfl, rfl⟩
        · exact Or.inl ⟨(hf1.1 st hst).1, (hf1.1 st hst).2.2⟩
        · exact Or.inl ⟨((hf2.1 st hst).1).trans hf1.2.1,
            ((hf2.1 st hst).2.2).trans hf1.2.2.2⟩
        · exact Or.inr (Or.inr ⟨rfl, ((hf2.2.2.2).trans hf1.2.2.2)⟩)

/-- Job-record values observable over the process lifetime: the initial
record, plus (inductively) every value written by a worker run started
from an observable record. `vox` is the process-wide constant
`VOXNOVEL_AVAILABLE`. -/
inductive Reachable (vox : Bool) : JobStatus → Prop where
  | init : Reachable vox initial_job_status
  | step (s s' : JobStatus) (fp now : String) (tok : Nat → Option String)
      (wr : Except String Unit) (hs : Reachable vox s)
      (hmem : s' ∈ statusTrace (process_book_job vox fp tok wr now s)) :
      Reachable vox s'

/-- Strengthened invariant for the `Reachable` induction. -/
lemma reachable_output_inv (vox : Bool) (s : JobStatus) (h : Reachable vox s) :
    (s.status = "completed" ↔ s.output_file ≠ none) ∧
      (vox = false → s.output_file = none) := by
  induction h with
  | init =>
    refine ⟨?_, fun _ => rfl⟩
    simp [initial_job_status]
  | step s s' fp now tok wr hs hmem ih =>
    cases vox with
    | false =>
      rw [process_book_job_false] at hmem
      simp only [statusTrace, List.mem_singleton] at hmem
      subst hmem
      have hout : (errUnavailable s).output_file = none := ih.2 rfl
      refine ⟨?_, fun _ => hout⟩
      rw [hout]
      simp [errUnavailable]
    | true =>
      rw [process_book_job_true] at hmem
      have := statusTrace_avail_cases fp tok wr now s' hmem
      refine ⟨?_, by intro hc; exact absurd hc (by simp)⟩
      rcases this with ⟨hp, ho⟩ | ⟨hp, ho⟩ | ⟨hp, ho⟩
      · rw [hp, ho]; simp
      · rw [hp]; simp [ho]
      · rw [hp, ho]; simp

/-- C5: at every observable point of the job record's lifetime,
`output_file` is set (non-null) exactly when `status` is `completed`. -/
theorem C5_output_file_iff_completed (vox : Bool) (s : JobStatus)
    (h : Reachable vox s) :
    s.status = "completed" ↔ s.output_file ≠ none :=
  (reachable_output_inv vox s h).1

/-- Witness for C5 at the initial record. -/
theorem C5_witness :
    (initial_job_status.status = "completed" ↔
      initial_job_status.output_file ≠ none) :=
  C5_output_file_iff_completed false initial_job_status Reachable.init

lemma splitAtLastOccur_eq_none_iff (sep : Char) :
    ∀ l : List Char, splitAtLastOccur sep l = none ↔ sep ∉ l := by
  intro l
  induction l with
  | nil => simp [splitAtLastOccur]
  | cons c cs ih =>
    cases hrec : splitAtLastOccur sep cs with
    | some p =>
      simp only [splitAtLastOccur, hrec]
      constructor
      · intro hc; cases hc
      · intro hc
        exact absurd (ih.mpr (fun hmem => hc (List.mem_cons_of_mem c hmem)))
          (by simp [hrec])
    | none =>
      have hns : sep ∉ cs := ih.mp hrec
      simp only [splitAtLastOccur, hrec, List.mem_cons]
      by_cases hcsep : c = sep
      · subst hcsep
        simp
      · rw [if_neg hcsep]
        constructor
        · intro _
          rintro (hh | hh)
          · exact hcsep hh.symm
          · exact hns hh
        · intro _
          rfl

lemma splitAtLastOccur_eq_some (sep : Char) :
    ∀ (l b a : List Char), splitAtLastOccur sep l = some (b, a) →
      l = b ++ sep :: a ∧ sep ∉ a := by
  intro l
  induction l with
  | nil => intro b a h; simp [splitAtLastOccur] at h
  | cons c cs ih =>
    intro b a h
    cases hrec : splitAtLastOccur sep cs with
    | some p =>
      rcases p with ⟨b', a'⟩
      rw [splitAtLastOccur, hrec] at h
      injection h with h
      have hb : c :: b' = b := congrArg Prod.fst h
      have ha : a' = a := congrArg Prod.snd h
      subst hb
      subst ha
      rcases ih b' a' hrec with ⟨hdec, hna⟩
      exact ⟨by simp [hdec], hna⟩
    | none =>
      rw [splitAtLastOccur, hrec] at h
      by_cases hcsep : c = sep
      · rw [if_pos hcsep] at h
        injection h with h
        have hb : ([] : List Char) = b := congrArg Prod.fst h
        have ha : cs = a := congrArg Prod.snd h
        subst hb
        subst ha
        exact ⟨by simp [hcsep], (splitAtLastOccur_eq_none_iff sep cs).mp hrec⟩
      · rw [if_neg hcsep] at h
        cases h

lemma splitAtLastOccur_of_decomp (sep : Char) :
    ∀ (b a : List Char), sep ∉ a →
      splitAtLastOccur sep (b ++ sep :: a) = some (b, a) := by
  intro b
  induction b with
  | nil =>
    intro a hna
    have hrec : splitAtLastOccur sep a = none :=
      (splitAtLastOccur_eq_none_iff sep a).mpr hna
    simp [splitAtLastOccur, hrec]
  | cons c b' ih =>
    intro a hna
    have hrec := ih a hna
    simp [splitAtLastOccur, hrec]

/-- C7: `allowed_file name` is true exactly when `name` contains a dot
and the substring after its last dot, lower-cased, belongs to the fixed
extension set; the test is case-insensitive in the extension. -/
theorem C7_allowed_file_characterization (name : String) :
    allowed_file name = true ↔
      ('.' ∈ name.data ∧
        ∃ stem ext : List Char, name.data = stem ++ '.' :: ext ∧ '.' ∉ ext ∧
          String.mk (ext.map Char.toLower) ∈
            (["epub", "pdf", "mobi", "txt", "html", "rtf", "fb2", "odt",
              "cbr", "cbz"] : List String)) := by
  unfold allowed_file
  rw [Bool.and_eq_true]
  cases h : splitAtLastOccur '.' name.data with
  | none =>
    have hnd : '.' ∉ name.data := (splitAtLastOccur_eq_none_iff '.' name.data).mp h
    constructor
    · intro hc
      have : '.' ∈ name.data := by simpa using hc.1
      exact absurd this hnd
    · intro hc
      exact absurd hc.1 hnd
  | some p =>
    rcases p with ⟨b, a⟩
    rcases splitAtLastOccur_eq_some '.' name.data b a h with ⟨hdec, hna⟩
    have hmemdot : '.' ∈ name.data := by rw [hdec]; simp
    constructor
    · intro hc
      refine ⟨hmemdot, b, a, hdec, hna, ?_⟩
      have hmem := hc.2
      simpa [ALLOWED_EXTENSIONS] using hmem
    · rintro ⟨-, stem, ext, hdec', hna', hmem⟩
      have hsame : some (stem, ext) = some (b, a) := by
        rw [← h, hdec']
        exact (splitAtLastOccur_of_decomp '.' stem ext hna').symm
      injection hsame with hsame
      have ha : ext = a := congrArg Prod.snd hsame
      subst ha
      refine ⟨by simpa using hmemdot, ?_⟩
      simpa [ALLOWED_EXTENSIONS] using hmem

/-- C6 counterexample: uploading `book.epub` over an existing upload of
the same (already sanitized) name returns 200 and silently replaces the
stored content, so saving does overwrite an existing upload. -/
theorem C6_counterexample_silent_overwrite :
    (upload_file
        { current_job := none, job_status := initial_job_status,
          uploads := [("book.epub", "OLD")] }
        { hasFile := true, filename := "book.epub", content := "NEW",
          form := fun _ => none }).response =
      UploadResponse.ok "File uploaded and processing started" "book.epub" ∧
    (upload_file
        { current_job := none, job_status := initial_job_status,
          uploads := [("book.epub", "OLD")] }
        { hasFile := true, filename := "book.epub", content := "NEW",
          form := fun _ => none }).state.uploads = [("book.epub", "NEW")] := by
  decide

/-- The head of `dropWhile p` never satisfies `p`. -/
lemma head?_dropWhile_not (p : Char → Bool) :
    ∀ (l : List Char) (c : Char), (l.dropWhile p).head? = some c → p c = false := by
  intro l
  induction l with
  | nil => intro c h; cases h
  | cons a l ih =>
    intro c h
    by_cases hp : p a
    · rw [List.dropWhile_cons, if_pos hp] at h
      exact ih c h
    · rw [List.dropWhile_cons, if_neg hp] at h
      injection h with h
      subst h
      exact Bool.of_not_eq_true hp

/-- Stripping trailing characters preserves the head. -/
lemma head?_rstrip (q : Char → Bool) (l : List Char) (c : Char)
    (h : ((l.reverse.dropWhile q).reverse).head? = some c) : l.head? = some c := by
  have hl : (l.reverse.dropWhile q).reverse ++ (l.reverse.takeWhile q).reverse = l := by
    rw [← List.reverse_append, List.takeWhile_append_dropWhile, List.reverse_reverse]
  rw [← hl]
  cases hfin : (l.reverse.dropWhile q).reverse with
  | nil => rw [hfin] at h; cases h
  | cons x r =>
    rw [hfin] at h
    injection h with h
    subst h
    rfl

/-- Every character of a sanitized name passed werkzeug's character
filter. -/
lemma secure_filename_chars_safe (f : String) :
    ∀ c ∈ (secure_filename f).data, safeFilenameChar c = true := by
  intro c hc
  unfold secure_filename at hc
  simp only [String.mk] at hc
  rw [List.mem_reverse] at hc
  have hc2 := (List.dropWhile_sublist dotOrUnderscore).subset hc
  rw [List.mem_reverse] at hc2
  have hc3 := (List.dropWhile_sublist dotOrUnderscore).subset hc2
  exact (List.mem_filter.mp hc3).2

/-- A sanitized name never starts with a dot. -/
lemma secure_filename_head_not_dot (f : String) :
    (secure_filename f).data.head? ≠ some '.' := by
  intro h
  unfold secure_filename at h
  simp only [String.mk] at h
  have hfront := head?_rstrip dotOrUnderscore _ '.' h
  have := head?_dropWhile_not dotOrUnderscore _ '.' hfront
  exact absurd this (by decide)

/-- After `file.save`, every uploads-area entry under the saved name
holds the newly written content (the previous content is gone). -/
lemma saveFile_entry_content (ups : List (String × String)) (n c : String) :
    ∀ p ∈ saveFile ups n c, p.1 = n → p.2 = c := by
  intro p hp hpn
  unfold saveFile at hp
  split at hp
  · rcases List.mem_map.mp hp with ⟨q, hq, hqe⟩
    by_cases hqn : q.1 = n
    · rw [if_pos hqn] at hqe
      rw [← hqe]
    · rw [if_neg hqn] at hqe
      subst hqe
      exact absurd hpn hqn
  · next hany =>
    rcases List.mem_append.mp hp with h | h
    · exact absurd (List.any_eq_true.mpr ⟨p, h, by simp [hpn]⟩) hany
    · rw [List.mem_singleton.mp h]

/-- C6 amended: every accepted upload is stored under the sanitized
werkzeug name `secure_filename(filename)` inside the uploads area; the
sanitized name contains no path separator and does not start with a
dot, so path-traversal sequences cannot escape the uploads directory;
however, saving under a name that matches an existing upload silently
overwrites it (every stored entry under that name ends up with the new
content). -/
theorem C6_amended_sanitized_but_overwrites :
    (∀ f : String,
      (∀ c ∈ (secure_filename f).data, c ≠ '/') ∧
      (secure_filename f).data.head? ≠ some '.') ∧
    (∀ (ups : List (String × String)) (n c : String),
      ∀ p ∈ saveFile ups n c, p.1 = n → p.2 = c) ∧
    (∀ (s : ServerState) (req : UploadRequest),
      s.current_job = none → req.hasFile = true → ¬ req.filename = "" →
      allowed_file req.filename = true →
      (upload_file s req).state.uploads =
        saveFile s.uploads (secure_filename req.filename) req.content) := by
  refine ⟨?_, saveFile_entry_content, ?_⟩
  · intro f
    refine ⟨?_, secure_filename_head_not_dot f⟩
    intro c hc hceq
    have := secure_filename_chars_safe f c hc
    rw [hceq] at this
    exact absurd this (by decide)
  · intro s req h1 h2 h3 h4
    unfold upload_file
    rw [h1]
    simp only [Option.isSome_none, Bool.false_eq_true, if_false, h2, Bool.not_true,
      if_neg h3, if_pos h4]
    split
    · rfl
    · rfl

/-- Witness for the amended C6: a concrete accepted upload whose file
lands under the sanitized name. -/
theorem C6_amended_witness :
    (upload_file
        { current_job := none, job_status := initial_job_status,
          uploads := [("book.epub", "OLD")] }
        { hasFile := true, filename := "book.epub", content := "NEW",
          form := fun _ => none }).state.uploads =
      saveFile [("book.epub", "OLD")] (secure_filename "book.epub") "NEW" :=
  C6_amended_sanitized_but_overwrites.2.2
    { current_job := none, job_status := initial_job_status,
      uploads := [("book.epub", "OLD")] }
    { hasFile := true, filename := "book.epub", content := "NEW",
      form := fun _ => none }
    rfl rfl (by decide) (by decide)
